import Mathlib

/-!
Shallow embedding of the AsawerBackend jewelry catalog/ordering service
(Express + Mongoose), restricted to the parts needed for the claims:
the catalog access-control logic (src/models/Product.js catalog schema,
src/routes/catalogs.js), the order engine (src/routes/orders.js and the
newest order-route version embedded in src/routes/catalogs.js), and the
session/auth guard (src/middlewares/auth.js).

Identifier values stored in Mixed-typed Mongoose fields can be a BSON
ObjectId, a plain string, or (through a historical bug) an embedded
object carrying an id; we model the three representations explicitly,
since several access checks in the source differ exactly in how they
normalize them.
-/

namespace Asawer

/-- A stored identifier value in a Mixed-typed field: an ObjectId whose hex
string is `s`, a plain string `s`, or an embedded object whose inner id is
`s` (e.g. an accidentally-stored populated user document). -/
inductive IdRepr where
  | objId (s : String)
  | strId (s : String)
  | embedded (s : String)
deriving DecidableEq

/-- JavaScript `.toString()` on a stored identifier: ObjectIds and strings
yield the canonical string, but a plain object yields "[object Object]".
This is the normalization used by the older catalog-schema
`hasUserAccess` (src/models/Product.js lines 119-134) and by the
in-memory catalog filter (src/routes/catalogs.js lines 80-107). -/
def jsToString : IdRepr → String
  | .objId s => s
  | .strId s => s
  | .embedded _ => "[object Object]"

/-- The `toIdString` normalizer of the newest catalog schema
(src/models/Product.js lines 210-218): unwraps an embedded object via its
inner id before stringifying. -/
def toIdString : IdRepr → String
  | .objId s => s
  | .strId s => s
  | .embedded s => s

/-- Model of `mongoose.Types.ObjectId.isValid` on a string: a 24-character
hex string. -/
def isHexChar (c : Char) : Bool :=
  c.isDigit || (('a' ≤ c) && (c ≤ 'f')) || (('A' ≤ c) && (c ≤ 'F'))

def isValidObjectId (s : String) : Bool :=
  s.data.length == 24 && s.data.all isHexChar

/-- Catalog document (catalog schema in src/models/Product.js). -/
structure Catalog where
  id : String
  name : String
  ownerId : IdRepr
  allowedUserIds : List IdRepr
  isPublic : Bool
  products : List IdRepr
deriving DecidableEq

/-- Product document (src/models/Product.js lines 3-65). `catalogId` is the
owning catalog's canonical id (the schema types it as ObjectId). -/
structure Product where
  id : String
  name : String
  price : Rat
  catalogId : String
deriving DecidableEq

/-- One snapshotted order item (orderItemSchema, src/models/Order.js). -/
structure OrderItem where
  productId : String
  quantity : Nat
  price : Rat
  name : String
  size : Option String
deriving DecidableEq

/-- Order document (src/models/Order.js). `status` ranges over the enum
strings; `userId` is kept in canonical string form. -/
structure Order where
  id : String
  userId : String
  catalogId : String
  items : List OrderItem
  status : String
  totalAmount : Rat
  notes : Option String
deriving DecidableEq

/-- User document (src/unnamed/part_006 user schema), restricted to the
fields the auth middleware reads. -/
structure UserRec where
  id : String
  email : String
  isAdmin : Bool
  isActive : Bool
deriving DecidableEq

/-- The `req.user` object the auth middleware attaches
(src/middlewares/auth.js lines 83-87): canonical id plus the derived
role string. -/
structure AuthUser where
  id : String
  role : String
deriving DecidableEq

/-- The persistent store: one collection per model. -/
structure DB where
  catalogs : List Catalog
  products : List Product
  orders : List Order
deriving DecidableEq

def findCatalog (db : DB) (cid : String) : Option Catalog :=
  db.catalogs.find? (fun c => c.id == cid)

def findProduct (db : DB) (pid : String) : Option Product :=
  db.products.find? (fun p => p.id == pid)

def findOrder (db : DB) (oid : String) : Option Order :=
  db.orders.find? (fun o => o.id == oid)

/-- `catalogSchema.methods.hasUserAccess` (src/models/Product.js lines
119-134, the version the order routes run against): owner by raw
`.toString()` comparison, else public, else allow-list membership by raw
`.toString()` comparison. The caller's role is not consulted. -/
def hasUserAccess (c : Catalog) (userId : String) : Bool :=
  if jsToString c.ownerId == userId then true
  else if c.isPublic then true
  else c.allowedUserIds.any (fun a => jsToString a == userId)

/-- `catalogSchema.methods.canUserEdit` (src/models/Product.js lines
242-250, newest version): admin, or owner by `toIdString` comparison. -/
def canUserEdit (c : Catalog) (userId : String) (role : String) : Bool :=
  if role == "admin" then true
  else toIdString c.ownerId == userId

/-- The Access Policy Engine read predicate as the spec words it
(spec section 4.1): admin role, or public, or owner, or allow-listed, with
all identifier comparisons in canonical string form. Written from the
spec, to be compared against the code-level checks. -/
def spec_canRead (c : Catalog) (userId : String) (role : String) : Bool :=
  role == "admin" || c.isPublic || toIdString c.ownerId == userId
    || c.allowedUserIds.any (fun a => toIdString a == userId)

/-- One item of a POST /api/orders request body. The client may supply a
`price` field; the handler never reads it. An absent or empty `productId`
is modelled as the empty string (falsy in the source's validation). -/
structure OrderItemReq where
  productId : String
  quantity : Nat
  price : Option Rat
  size : Option String
deriving DecidableEq

/-- Body of a POST /api/orders request. -/
structure OrderReq where
  catalogId : String
  items : List OrderItemReq
  notes : Option String
deriving DecidableEq

/-- `validateOrderData` middleware (src/routes/orders.js lines 9-30):
catalogId required, items a non-empty array, each item with a truthy
productId and quantity at least 1. Returns the 400 response it sends, if
any. -/
def validateOrderData (req : OrderReq) : Option (Nat × String) :=
  if req.catalogId == "" then some (400, "Catalog ID is required")
  else if req.items.isEmpty then some (400, "Order items are required")
  else if req.items.any (fun i => i.productId == "" || i.quantity < 1) then
    some (400, "Each item must have productId and quantity >= 1")
  else none

/-- The catalog-membership check of the newest order route
(src/routes/catalogs.js lines 1026-1028): compare the stored product
references and the requested id as strings, to avoid ObjectId-vs-string
mismatches. -/
def productInCatalog (c : Catalog) (pid : String) : Bool :=
  c.products.any (fun idr => jsToString idr == pid)

/-- The per-item loop of the order route (src/routes/catalogs.js lines
1016-1052): resolve each product, check catalog membership, accumulate
the server-side total and the snapshotted order items; the first failing
item aborts with its error response. -/
def processItems (db : DB) (catalog : Catalog) :
    List OrderItemReq → Except (Nat × String) (Rat × List OrderItem)
  | [] => Except.ok (0, [])
  | item :: rest =>
    match findProduct db item.productId with
    | none => Except.error (404, "Product " ++ item.productId ++ " not found")
    | some product =>
      if !productInCatalog catalog item.productId then
        Except.error (400, "Product " ++ product.name ++ " is not in this catalog")
      else
        match processItems db catalog rest with
        | Except.error e => Except.error e
        | Except.ok (t, its) =>
          Except.ok (product.price * (item.quantity : Rat) + t,
            { productId := item.productId, quantity := item.quantity,
              price := product.price, name := product.name,
              size := item.size } :: its)

/-- POST /api/orders handler, newest version (src/routes/catalogs.js lines
997-1063): validation, catalog lookup, `hasUserAccess` check (no role
bypass), per-item processing, then the order is built with the computed
total, snapshotted items and default status pending. `oid` stands for the
fresh ObjectId Mongo assigns. -/
def placeOrder (db : DB) (user : AuthUser) (oid : String) (req : OrderReq) :
    Except (Nat × String) Order :=
  match validateOrderData req with
  | some e => Except.error e
  | none =>
    match findCatalog db req.catalogId with
    | none => Except.error (404, "Catalog not found")
    | some catalog =>
      if !hasUserAccess catalog user.id then
        Except.error (403, "Access denied to catalog")
      else
        match processItems db catalog req.items with
        | Except.error e => Except.error e
        | Except.ok (total, its) =>
          Except.ok { id := oid, userId := user.id, catalogId := req.catalogId,
                      items := its, status := "pending", totalAmount := total,
                      notes := req.notes }

/-- Effect of the order route on the store: `order.save()` appends the new
order on success; a failed request writes nothing. -/
def placeOrderDB (db : DB) (user : AuthUser) (oid : String) (req : OrderReq) : DB :=
  match placeOrder db user oid req with
  | Except.ok o => { db with orders := db.orders ++ [o] }
  | Except.error _ => db

/-- A later live edit of a product's price (PUT on the product), modelled
as a store update touching only the product collection. -/
def setProductPrice (db : DB) (pid : String) (x : Rat) : DB :=
  { db with products :=
      db.products.map (fun p => if p.id == pid then { p with price := x } else p) }

/-- Erase any client-supplied price fields from an order request. -/
def stripClientPrices (req : OrderReq) : OrderReq :=
  { req with items := req.items.map (fun i => { i with price := none }) }

/-- Sum of price times quantity over snapshotted items
(`orderSchema.methods.calculateTotal`, src/models/Order.js lines 86-90). -/
def calculateTotal (items : List OrderItem) : Rat :=
  (items.map (fun it => it.price * (it.quantity : Rat))).sum

/-- The status enum of the status-update route (src/routes/orders.js line
224). -/
def validStatuses : List String :=
  ["pending", "confirmed", "shipped", "delivered", "cancelled"]

/-- PUT /api/orders/:id/status handler (src/routes/orders.js lines
206-265): admin only, status must be a truthy member of the enum, then
the status is assigned directly — the source performs no
transition-legality check. -/
def updateOrderStatus (db : DB) (user : AuthUser) (oid : String) (status : String) :
    Except (Nat × String) Order :=
  if user.role != "admin" then Except.error (403, "Admin access required")
  else if status == "" || !validStatuses.contains status then
    Except.error (400, "Valid status is required")
  else
    match findOrder db oid with
    | none => Except.error (404, "Order not found")
    | some order => Except.ok { order with status := status }

/-- Modelled from the spec: the forward-only status state machine of spec
section 4.4 (pending to confirmed to shipped to delivered, cancellation
from pending/confirmed/shipped, delivered and cancelled terminal). The
source has no corresponding code; this definition exists only to state
the transition claims. -/
def spec_allowedTransition (fromS toS : String) : Bool :=
  (fromS == "pending" && (toS == "confirmed" || toS == "cancelled")) ||
  (fromS == "confirmed" && (toS == "shipped" || toS == "cancelled")) ||
  (fromS == "shipped" && (toS == "delivered" || toS == "cancelled"))

/-- PUT /api/orders/:id/cancel handler (src/routes/orders.js lines
268-305): owner or admin, then delivered and already-cancelled orders are
refused, otherwise status becomes cancelled. -/
def cancelOrder (db : DB) (user : AuthUser) (oid : String) :
    Except (Nat × String) Order :=
  match findOrder db oid with
  | none => Except.error (404, "Order not found")
  | some order =>
    if user.role != "admin" && order.userId != user.id then
      Except.error (403, "Access denied")
    else if order.status == "delivered" then
      Except.error (400, "Delivered orders cannot be cancelled")
    else if order.status == "cancelled" then
      Except.error (400, "Order is already cancelled")
    else
      Except.ok { order with status := "cancelled" }

/-- DELETE /api/catalogs/:id handler (src/routes/catalogs.js lines
279-315): lookup, then admin-or-editor check, then
`Product.deleteMany(\x7bcatalogId: id\x7d)` followed by deletion of the
catalog itself. Since `canUserEdit` is already true for admins, the
route's `role !== admin && !canUserEdit` guard reduces to
`!canUserEdit`. -/
def deleteCatalog (db : DB) (user : AuthUser) (cid : String) :
    Except (Nat × String) DB :=
  match findCatalog db cid with
  | none => Except.error (404, "Catalog not found")
  | some catalog =>
    if user.role != "admin" && !canUserEdit catalog user.id user.role then
      Except.error (403, "Permission denied")
    else
      Except.ok { db with
        products := db.products.filter (fun p => !(p.catalogId == cid)),
        catalogs := db.catalogs.filter (fun c => !(c.id == cid)) }

/-- A subsequent fetch of a product id: every product read route answers
404 when `findById`/`findOne` resolves nothing (e.g.
src/routes/products.js GET /:id). -/
def fetchProduct (db : DB) (pid : String) : Except (Nat × String) Product :=
  match findProduct db pid with
  | none => Except.error (404, "Product not found")
  | some p => Except.ok p

/-- A bearer credential as the auth middleware sees it after the JWT
layer: either a token that fails signature/shape verification, or a
verified claim carrying the subject user id, issued-at and expiry
(seconds since epoch). -/
inductive Token where
  | malformed
  | signed (userId : String) (iat : Nat) (exp : Nat)
deriving DecidableEq

def findUser (users : List UserRec) (uid : String) : Option UserRec :=
  users.find? (fun u => u.id == uid)

/-- The middleware's issued-before-cutoff condition
(src/middlewares/auth.js line 69): cutoff truthy, issued-at truthy, and
issued-at strictly before the cutoff. -/
def cutoffInvalidated (cutoff iat : Nat) : Bool :=
  cutoff != 0 && iat != 0 && iat < cutoff

/-- The auth middleware's JWT path (src/middlewares/auth.js lines 53-107):
401 when the header carries no token, when verification fails, when the
token is expired, when the global issued-before cutoff invalidates it
(cutoff 0 means the TOKEN_INVALID_BEFORE variable is unset or zero, both
falsy), or when the subject user does not exist. Otherwise the resolved
user is attached with role derived from `isAdmin`. The middleware never
reads `isActive`. -/
def authGuard (users : List UserRec) (cutoff : Nat) (now : Nat)
    (tok : Option Token) : Except (Nat × String) AuthUser :=
  match tok with
  | none => Except.error (401, "No token, authorization denied")
  | some Token.malformed => Except.error (401, "Token is not valid")
  | some (Token.signed uid iat exp) =>
    if exp ≤ now then Except.error (401, "Token expired")
    else if cutoffInvalidated cutoff iat then
      Except.error (401, "Token invalidated")
    else
      match findUser users uid with
      | none => Except.error (401, "Token is not valid")
      | some u =>
        Except.ok { id := u.id, role := if u.isAdmin then "admin" else "user" }

/-- GET /api/catalogs handler, first version (src/routes/catalogs.js lines
53-107): admins get every catalog; other callers get an in-memory filter
comparing `ownerId` and each `allowedUserIds` entry to the caller's id by
raw `.toString()`. -/
def listAccessibleInMemory (catalogs : List Catalog) (userId : String)
    (role : String) : List Catalog :=
  if role == "admin" then catalogs
  else
    catalogs.filter (fun c =>
      if c.isPublic then true
      else if jsToString c.ownerId == userId then true
      else c.allowedUserIds.any (fun a => jsToString a == userId))

/-- Whether one Mongo-stored identifier value is matched by the $or
conditions `findAccessibleByUser` pushes for a caller id `uid`
(src/models/Product.js lines 263-275): the string-form condition matches
stored strings, the ObjectId-form condition (pushed only when `uid` is a
valid ObjectId) matches stored ObjectIds, and the dotted `._id`
conditions match embedded objects. -/
def queryIdMatch (valid : Bool) (uid : String) : IdRepr → Bool
  | .strId s => s == uid
  | .objId s => valid && s == uid
  | .embedded s => s == uid || (valid && s == uid)

/-- `catalogSchema.statics.findAccessibleByUser`, newest version
(src/models/Product.js lines 253-278): admins get everything; otherwise a
single query whose $or covers public catalogs and every stored
representation of the caller's id in `ownerId` / `allowedUserIds`. -/
def findAccessibleByUser (catalogs : List Catalog) (userId : String)
    (role : String) : List Catalog :=
  if role == "admin" then catalogs
  else
    let valid := isValidObjectId userId
    catalogs.filter (fun c =>
      c.isPublic || queryIdMatch valid userId c.ownerId
        || c.allowedUserIds.any (queryIdMatch valid userId))

/-- GET /api/catalogs/migrate-public handler (src/routes/catalogs.js lines
9-26). The route is registered without the auth middleware, so the
credential argument is never consulted; `updateMany` sets
`isPublic := true` on every catalog for which it is not already true and
reports how many documents it modified. -/
def migratePublicRoute (cred : Option Token) (db : DB) : DB × Nat :=
  ({ db with catalogs :=
      db.catalogs.map (fun c => if !c.isPublic then { c with isPublic := true } else c) },
   (db.catalogs.filter (fun c => !c.isPublic)).length)

/-- First-occurrence deduplication of strings, as a JavaScript Set
performs it. -/
def dedupFirstAux (seen : List String) : List String → List String
  | [] => []
  | a :: l =>
    if seen.contains a then dedupFirstAux seen l
    else a :: dedupFirstAux (a :: seen) l

def dedupFirst (l : List String) : List String := dedupFirstAux [] l

/-- Key-based deduplication keeping first occurrences, mirroring the
seen-set loop of the createCatalog normalizer. -/
def dedupByKeyAux (seen : List String) : List IdRepr → List IdRepr
  | [] => []
  | v :: rest =>
    let k := jsToString v
    if seen.contains k then dedupByKeyAux seen rest
    else v :: dedupByKeyAux (k :: seen) rest

/-- The allowedUserIds normalizer of POST /api/catalogs
(src/routes/catalogs.js lines 193-210): dedupe the truthy inputs as
strings, push each string plus its ObjectId form when valid, then dedupe
again by string key — which keeps only the string forms, since the
ObjectId twin shares its key. -/
def normalizeAllowedIds (ids : List String) : List IdRepr :=
  let asStrings := dedupFirst (ids.filter (fun s => !(s == "")))
  let withObjectIds := asStrings.flatMap (fun s =>
    if isValidObjectId s then [IdRepr.strId s, IdRepr.objId s] else [IdRepr.strId s])
  dedupByKeyAux [] withObjectIds

/-- The catalog schema's declared default for `isPublic`
(src/models/Product.js lines 94-97). -/
def catalogSchemaIsPublicDefault : Bool := true

/-- POST /api/catalogs handler (src/routes/catalogs.js lines 177-234):
admin only, name required truthy, allow-list normalized when an array is
supplied, and `isPublic` defaulting to true when the field is absent.
`newId` stands for the fresh ObjectId Mongo assigns. -/
def createCatalog (user : AuthUser) (newId : String) (name : Option String)
    (description : Option String) (allowedUserIds : Option (List String))
    (isPublic : Option Bool) : Except (Nat × String) Catalog :=
  if user.role != "admin" then Except.error (403, "Admin access required")
  else
    match name with
    | none => Except.error (400, "Catalog name is required")
    | some n =>
      if n == "" then Except.error (400, "Catalog name is required")
      else
        Except.ok { id := newId, name := n, ownerId := IdRepr.strId user.id,
                    allowedUserIds :=
                      match allowedUserIds with
                      | some ids => normalizeAllowedIds ids
                      | none => [],
                    isPublic := isPublic.getD true,
                    products := [] }

/-- One stored identifier is well formed when its ObjectId form carries a
valid ObjectId hex string — true of every value Mongo itself created. -/
def entryWellFormed : IdRepr → Bool
  | .objId s => isValidObjectId s
  | _ => true

/-- No embedded-object identifier representation. -/
def noEmbeddedEntry : IdRepr → Bool
  | .embedded _ => false
  | _ => true

def catalogWellFormed (c : Catalog) : Bool :=
  entryWellFormed c.ownerId && c.allowedUserIds.all entryWellFormed

def catalogNoEmbedded (c : Catalog) : Bool :=
  noEmbeddedEntry c.ownerId && c.allowedUserIds.all noEmbeddedEntry

/- Concrete fixtures used by the counterexamples and witnesses. -/

def ringProduct : Product := { id := "p1", name := "Ring", price := 100, catalogId := "c1" }

def privateCatalog : Catalog :=
  { id := "c1", name := "Private", ownerId := IdRepr.strId "owner1",
    allowedUserIds := [], isPublic := false, products := [IdRepr.objId "p1"] }

def adminCaller : AuthUser := { id := "admin1", role := "admin" }

def db1 : DB := { catalogs := [privateCatalog], products := [ringProduct], orders := [] }

def orderReq1 : OrderReq :=
  { catalogId := "c1",
    items := [{ productId := "p1", quantity := 1, price := none, size := none }],
    notes := none }

def publicCatalog : Catalog :=
  { id := "c2", name := "Public", ownerId := IdRepr.strId "owner1",
    allowedUserIds := [], isPublic := true, products := [IdRepr.objId "p2"] }

def braceletProduct : Product := { id := "p2", name := "Bracelet", price := 100, catalogId := "c2" }

def buyer : AuthUser := { id := "u1", role := "user" }

def db2 : DB := { catalogs := [publicCatalog], products := [braceletProduct], orders := [] }

def orderReq2 : OrderReq :=
  { catalogId := "c2",
    items := [{ productId := "p2", quantity := 3, price := some 5, size := none }],
    notes := none }

def deliveredOrder : Order :=
  { id := "o9", userId := "u1", catalogId := "c2", items := [],
    status := "delivered", totalAmount := 0, notes := none }

def db3 : DB := { catalogs := [], products := [], orders := [deliveredOrder] }

def necklaceProduct : Product := { id := "p3", name := "Necklace", price := 50, catalogId := "c3" }

def db4 : DB :=
  { catalogs := [publicCatalog], products := [braceletProduct, necklaceProduct], orders := [] }

def orderReq4 : OrderReq :=
  { catalogId := "c2",
    items := [{ productId := "p3", quantity := 1, price := none, size := none }],
    notes := none }

def inactiveUser : UserRec :=
  { id := "u9", email := "frozen@example.com", isAdmin := false, isActive := false }

def embeddedOwnerCatalog : Catalog :=
  { id := "c6", name := "Embedded", ownerId := IdRepr.embedded "u1",
    allowedUserIds := [], isPublic := false, products := [] }

def hexId : String := "0123456789abcdef01234567"

def objOwnerCatalog : Catalog :=
  { id := "c5", name := "ObjOwner", ownerId := IdRepr.objId hexId,
    allowedUserIds := [IdRepr.strId "u2"], isPublic := false, products := [] }

def threeProductCatalog : Catalog :=
  { id := "c7", name := "Three", ownerId := IdRepr.strId "owner7",
    allowedUserIds := [], isPublic := true,
    products := [IdRepr.objId "q1", IdRepr.objId "q2", IdRepr.objId "q3"] }

def q1 : Product := { id := "q1", name := "A", price := 1, catalogId := "c7" }
def q2 : Product := { id := "q2", name := "B", price := 2, catalogId := "c7" }
def q3 : Product := { id := "q3", name := "C", price := 3, catalogId := "c7" }

def owner7 : AuthUser := { id := "owner7", role := "user" }

def db7 : DB := { catalogs := [threeProductCatalog], products := [q1, q2, q3], orders := [] }

def pendingOrder : Order :=
  { id := "o8", userId := "u1", catalogId := "c2", items := [],
    status := "pending", totalAmount := 0, notes := none }

def db8 : DB := { catalogs := [], products := [], orders := [pendingOrder] }

/- Supporting lemmas. -/

/-- Pointwise-equal predicates give equal `any` over a list. -/
theorem any_congr_mem {α : Type} {l : List α} {p q : α → Bool}
    (h : ∀ a ∈ l, p a = q a) : l.any p = l.any q := by
  induction l with
  | nil => rfl
  | cons a t ih =>
    simp only [List.any_cons, h a (by simp)]
    rw [ih (fun b hb => h b (by simp [hb]))]

/-- Every error the per-item loop produces carries status 404 or 400,
never 403. -/
theorem processItems_error_status (db : DB) (cat : Catalog) :
    ∀ (l : List OrderItemReq) (e : Nat × String),
      processItems db cat l = Except.error e → e.1 = 404 ∨ e.1 = 400 := by
  intro l
  induction l with
  | nil => intro e h; simp [processItems] at h
  | cons item rest ih =>
    intro e h
    unfold processItems at h
    cases hf : findProduct db item.productId with
    | none =>
      rw [hf] at h
      simp only [Except.error.injEq] at h
      left; rw [← h]
    | some product =>
      rw [hf] at h
      by_cases hm : productInCatalog cat item.productId = true
      · simp only [hm, Bool.not_true, Bool.false_eq_true, if_false, ite_false] at h
        cases hr : processItems db cat rest with
        | error e2 =>
          rw [hr] at h
          simp only [Except.error.injEq] at h
          subst h; exact ih e2 hr
        | ok pr =>
          rw [hr] at h
          simp at h
      · rw [Bool.not_eq_true] at hm
        simp only [hm, Bool.not_false, if_true, ite_true, Except.error.injEq] at h
        right; rw [← h]

/-- The per-item loop reads the fields of each snapshotted item from the
resolved product and the request, and its returned total is the sum of
snapshot price times quantity. -/
theorem processItems_ok_spec (db : DB) (cat : Catalog) :
    ∀ (l : List OrderItemReq) (t : Rat) (its : List OrderItem),
      processItems db cat l = Except.ok (t, its) →
      t = calculateTotal its
      ∧ ∀ it ∈ its, ∃ p, findProduct db it.productId = some p
          ∧ it.price = p.price ∧ it.name = p.name := by
  intro l
  induction l with
  | nil =>
    intro t its h
    simp only [processItems, Except.ok.injEq, Prod.mk.injEq] at h
    obtain ⟨ht, hits⟩ := h
    subst ht; subst hits
    exact ⟨rfl, by simp⟩
  | cons item rest ih =>
    intro t its h
    unfold processItems at h
    cases hf : findProduct db item.productId with
    | none => rw [hf] at h; simp at h
    | some product =>
      rw [hf] at h
      by_cases hm : productInCatalog cat item.productId = true
      · simp only [hm, Bool.not_true, Bool.false_eq_true, if_false, ite_false] at h
        cases hr : processItems db cat rest with
        | error e2 => rw [hr] at h; simp at h
        | ok pr =>
          rw [hr] at h
          obtain ⟨t2, its2⟩ := pr
          simp only [Except.ok.injEq, Prod.mk.injEq] at h
          obtain ⟨ht, hits⟩ := h
          obtain ⟨hsum, hsnap⟩ := ih t2 its2 hr
          subst ht; subst hits
          constructor
          · simp [calculateTotal, hsum]
          · intro it hit
            rcases List.mem_cons.mp hit with hhd | htl
            · subst hhd; exact ⟨product, hf, rfl, rfl⟩
            · exact hsnap it htl
      · rw [Bool.not_eq_true] at hm
        simp [hm] at h

/-- Client-supplied price fields do not influence the per-item loop. -/
theorem processItems_strip (db : DB) (cat : Catalog) :
    ∀ (l : List OrderItemReq),
      processItems db cat (l.map (fun i => { i with price := none }))
        = processItems db cat l := by
  intro l
  induction l with
  | nil => rfl
  | cons item rest ih =>
    simp only [List.map_cons]
    unfold processItems
    rw [ih]

/-- Client-supplied price fields do not influence request validation. -/
theorem validateOrderData_strip (req : OrderReq) :
    validateOrderData (stripClientPrices req) = validateOrderData req := by
  unfold validateOrderData stripClientPrices
  simp [List.any_map, Function.comp]

/-- Client-supplied price fields do not influence order placement at
all. -/
theorem placeOrder_strip (db : DB) (user : AuthUser) (oid : String) (req : OrderReq) :
    placeOrder db user oid (stripClientPrices req) = placeOrder db user oid req := by
  unfold placeOrder
  rw [validateOrderData_strip]
  cases validateOrderData req with
  | some e => rfl
  | none =>
    show (match findCatalog db req.catalogId with
      | none => _ | some catalog => _) = _
    cases findCatalog db req.catalogId with
    | none => rfl
    | some catalog =>
      by_cases ha : hasUserAccess catalog user.id = true
      · simp only [ha]
        have := processItems_strip db catalog req.items
        unfold stripClientPrices
        simp only
        rw [this]
      · rw [Bool.not_eq_true] at ha
        simp [ha]

/-- Claim C1, counterexample: an admin who does not own a private catalog
and is not on its allow-list is denied order placement with 403, although
the spec's `canRead` grants every admin read access — the order route
consults `hasUserAccess`, which never looks at the role. -/
theorem placeOrder_admin_denied :
    placeOrder db1 adminCaller "o1" orderReq1 = Except.error (403, "Access denied to catalog")
    ∧ spec_canRead privateCatalog adminCaller.id adminCaller.role = true := by
  exact ⟨rfl, rfl⟩

/-- Claim C1, amended: for a placeOrder call that passes body validation
against an existing catalog, the call fails with 403 if and only if
`hasUserAccess(catalog, userId)` is false, i.e. iff the caller is not the
owner, the catalog is not public, and the caller is not allow-listed; the
caller's role plays no part, so an admin can be denied. -/
theorem placeOrder_denied_iff_hasUserAccess (db : DB) (user : AuthUser) (oid : String)
    (req : OrderReq) (catalog : Catalog)
    (hv : validateOrderData req = none)
    (hc : findCatalog db req.catalogId = some catalog) :
    placeOrder db user oid req = Except.error (403, "Access denied to catalog")
      ↔ hasUserAccess catalog user.id = false := by
  unfold placeOrder
  rw [hv, hc]
  by_cases ha : hasUserAccess catalog user.id = true
  · simp only [ha, Bool.not_true, Bool.false_eq_true, if_false, ite_false]
    constructor
    · intro h
      cases hp : processItems db catalog req.items with
      | error e =>
        rw [hp] at h
        simp only [Except.error.injEq] at h
        have hst := processItems_error_status db catalog req.items e hp
        rw [h] at hst
        simp at hst
      | ok pr =>
        obtain ⟨t, its⟩ := pr
        rw [hp] at h
        simp at h
    · intro h
      simp at h
  · rw [Bool.not_eq_true] at ha
    simp [ha]

/-- Claim C1, witness: on the concrete denied-admin state the amended
equivalence indeed yields the 403. -/
theorem placeOrder_denied_iff_hasUserAccess_witness :
    placeOrder db1 adminCaller "o1" orderReq1
      = Except.error (403, "Access denied to catalog") :=
  (placeOrder_denied_iff_hasUserAccess db1 adminCaller "o1" orderReq1
    privateCatalog rfl rfl).mpr rfl

/-- Claim C2: a successfully placed order's persisted total equals the sum
of snapshotted price times quantity; each snapshotted price and name is
read from the product resolved server-side at order time; stripping any
client-supplied price fields from the request leaves the result
unchanged; and a later live price edit does not touch the persisted
orders. -/
theorem placeOrder_total_server_side (db : DB) (user : AuthUser) (oid : String)
    (req : OrderReq) (order : Order)
    (h : placeOrder db user oid req = Except.ok order) :
    order.totalAmount = calculateTotal order.items
    ∧ (∀ it ∈ order.items, ∃ p, findProduct db it.productId = some p
         ∧ it.price = p.price ∧ it.name = p.name)
    ∧ placeOrder db user oid (stripClientPrices req) = Except.ok order
    ∧ (∀ pid x, (setProductPrice (placeOrderDB db user oid req) pid x).orders
         = (placeOrderDB db user oid req).orders) := by
  have hstrip := placeOrder_strip db user oid req
  unfold placeOrder at h
  cases hv : validateOrderData req with
  | some e => rw [hv] at h; simp at h
  | none =>
    rw [hv] at h
    cases hc : findCatalog db req.catalogId with
    | none => rw [hc] at h; simp at h
    | some catalog =>
      rw [hc] at h
      by_cases ha : hasUserAccess catalog user.id = true
      · simp only [ha, Bool.not_true, Bool.false_eq_true, if_false, ite_false] at h
        cases hp : processItems db catalog req.items with
        | error e => rw [hp] at h; simp at h
        | ok pr =>
          obtain ⟨t, its⟩ := pr
          rw [hp] at h
          simp only [Except.ok.injEq] at h
          obtain ⟨hsum, hsnap⟩ := processItems_ok_spec db catalog req.items t its hp
          subst h
          refine ⟨hsum, hsnap, ?_, fun pid x => rfl⟩
          rw [hstrip]
          unfold placeOrder
          rw [hv, hc]
          simp only [ha, Bool.not_true, Bool.false_eq_true, if_false, ite_false]
          rw [hp]
      · rw [Bool.not_eq_true] at ha
        simp [ha] at h

/-- Claim C2, witness: placing a concrete 3-unit order in a public catalog
succeeds and the theorem's guarantees hold on it. -/
theorem placeOrder_total_server_side_witness :
    ∃ o, placeOrder db2 buyer "o2" orderReq2 = Except.ok o
      ∧ o.totalAmount = calculateTotal o.items
      ∧ (∀ it ∈ o.items, ∃ p, findProduct db2 it.productId = some p
           ∧ it.price = p.price ∧ it.name = p.name)
      ∧ placeOrder db2 buyer "o2" (stripClientPrices orderReq2) = Except.ok o := by
  refine ⟨_, rfl, ?_⟩
  have h := placeOrder_total_server_side db2 buyer "o2" orderReq2 _ rfl
  exact ⟨h.1, h.2.1, h.2.2.1⟩

/-- Claim C3, counterexample: an admin moving a delivered order back to
pending succeeds — the status route accepts it although the spec's state
machine forbids any transition out of delivered, so the order does leave
the delivered status. -/
theorem updateOrderStatus_revives_delivered :
    updateOrderStatus db3 adminCaller "o9" "pending"
      = Except.ok { deliveredOrder with status := "pending" }
    ∧ deliveredOrder.status = "delivered"
    ∧ spec_allowedTransition "delivered" "pending" = false
    ∧ validStatuses.contains "pending" = true := by
  exact ⟨rfl, rfl, rfl, rfl⟩

/-- Claim C3, amended: the status route checks only the admin role and
membership of the new status in the enum; it performs no
transition-legality check, assigning the requested status over any
current status — including out of delivered or cancelled. -/
theorem updateOrderStatus_accepts_any_valid_status (db : DB) (user : AuthUser)
    (oid status : String) (order : Order)
    (h1 : user.role = "admin")
    (h2 : validStatuses.contains status = true)
    (h3 : findOrder db oid = some order) :
    updateOrderStatus db user oid status = Except.ok { order with status := status } := by
  have hne : (status == "") = false := by
    cases he : status == "" with
    | false => rfl
    | true =>
      have hs := eq_of_beq he
      subst hs
      have hcontra : validStatuses.contains "" = false := by decide
      rw [hcontra] at h2
      simp at h2
  unfold updateOrderStatus
  simp only [h1, h2, hne, bne_self_eq_false, Bool.not_true, Bool.or_false,
    Bool.false_eq_true, if_false, ite_false]
  rw [h3]

/-- Claim C3, witness: the amended rule applied to the concrete delivered
order and the enum status pending. -/
theorem updateOrderStatus_accepts_any_valid_status_witness :
    updateOrderStatus db3 adminCaller "o9" "confirmed"
      = Except.ok { deliveredOrder with status := "confirmed" } :=
  updateOrderStatus_accepts_any_valid_status db3 adminCaller "o9" "confirmed"
    deliveredOrder rfl rfl rfl

/-- The per-item loop fails on the first item whose resolved product is
not a member of the catalog's product list, with the route's
product-not-in-catalog message. -/
theorem processItems_first_bad (db : DB) (cat : Catalog) :
    ∀ (l : List OrderItemReq),
      (∀ it ∈ l, (findProduct db it.productId).isSome = true) →
      (∃ it ∈ l, productInCatalog cat it.productId = false) →
      ∃ pid p, findProduct db pid = some p
        ∧ productInCatalog cat pid = false
        ∧ processItems db cat l
            = Except.error (400, "Product " ++ p.name ++ " is not in this catalog") := by
  intro l
  induction l with
  | nil => intro _ hex; simp at hex
  | cons item rest ih =>
    intro hall hex
    have hf : (findProduct db item.productId).isSome = true := hall item (by simp)
    obtain ⟨p0, hp0⟩ := Option.isSome_iff_exists.mp hf
    by_cases hm : productInCatalog cat item.productId = true
    · have hex2 : ∃ it ∈ rest, productInCatalog cat it.productId = false := by
        rcases hex with ⟨it, hit, hbad⟩
        rcases List.mem_cons.mp hit with hhd | htl
        · subst hhd; rw [hm] at hbad; simp at hbad
        · exact ⟨it, htl, hbad⟩
      obtain ⟨pid, p, hfp, hbad, herr⟩ :=
        ih (fun it hit => hall it (by simp [hit])) hex2
      refine ⟨pid, p, hfp, hbad, ?_⟩
      unfold processItems
      rw [hp0]
      simp only [hm, Bool.not_true, Bool.false_eq_true, if_false, ite_false]
      rw [herr]
    · rw [Bool.not_eq_true] at hm
      refine ⟨item.productId, p0, hp0, hm, ?_⟩
      unfold processItems
      rw [hp0]
      simp [hm]

/-- Claim C4: when a validated, authorized order request contains items
whose products all resolve but some resolved product is not a member of
the supplied catalog, the request fails with 400 and the
product-not-in-catalog message, nothing is persisted, and the membership
test itself is exactly membership of the canonical string id in the
stringified product list — representation-independent, not raw reference
equality. -/
theorem placeOrder_product_not_in_catalog (db : DB) (user : AuthUser) (oid : String)
    (req : OrderReq) (catalog : Catalog)
    (hv : validateOrderData req = none)
    (hc : findCatalog db req.catalogId = some catalog)
    (ha : hasUserAccess catalog user.id = true)
    (hall : ∀ it ∈ req.items, (findProduct db it.productId).isSome = true)
    (hbad : ∃ it ∈ req.items, productInCatalog catalog it.productId = false) :
    (∃ pid p, findProduct db pid = some p ∧ productInCatalog catalog pid = false
       ∧ placeOrder db user oid req
           = Except.error (400, "Product " ++ p.name ++ " is not in this catalog"))
    ∧ placeOrderDB db user oid req = db
    ∧ (∀ (c : Catalog) (pid : String),
        productInCatalog c pid = true ↔ pid ∈ c.products.map jsToString) := by
  obtain ⟨pid, p, hfp, hm, herr⟩ := processItems_first_bad db catalog req.items hall hbad
  have hres : placeOrder db user oid req
      = Except.error (400, "Product " ++ p.name ++ " is not in this catalog") := by
    unfold placeOrder
    rw [hv, hc]
    simp only [ha, Bool.not_true, Bool.false_eq_true, if_false, ite_false]
    rw [herr]
  refine ⟨⟨pid, p, hfp, hm, hres⟩, ?_, ?_⟩
  · unfold placeOrderDB
    rw [hres]
  · intro c pid2
    simp [productInCatalog, List.any_eq_true, List.mem_map, beq_iff_eq]

/-- Claim C4, witness: ordering the concrete Necklace product — which
exists but belongs to another catalog — through the public catalog fails
with 400 and persists nothing. -/
theorem placeOrder_product_not_in_catalog_witness :
    (∃ pid p, findProduct db4 pid = some p
       ∧ productInCatalog publicCatalog pid = false
       ∧ placeOrder db4 buyer "o4" orderReq4
           = Except.error (400, "Product " ++ p.name ++ " is not in this catalog"))
    ∧ placeOrderDB db4 buyer "o4" orderReq4 = db4
    ∧ (∀ (c : Catalog) (pid : String),
        productInCatalog c pid = true ↔ pid ∈ c.products.map jsToString) :=
  placeOrder_product_not_in_catalog db4 buyer "o4" orderReq4 publicCatalog
    rfl rfl rfl (by decide) (by decide)

theorem cutoffInvalidated_iff (cutoff iat : Nat) :
    cutoffInvalidated cutoff iat = true ↔ (cutoff ≠ 0 ∧ iat ≠ 0 ∧ iat < cutoff) := by
  simp [cutoffInvalidated, Bool.and_eq_true, bne_iff_ne, decide_eq_true_eq, and_assoc]

/-- Claim C5, counterexample: a well-formed, unexpired token for an
existing user with `isActive = false` is accepted by the auth middleware
— no 401 — because the middleware never reads `isActive` (only the login
route does). -/
theorem authGuard_accepts_inactive_user :
    authGuard [inactiveUser] 0 50 (some (Token.signed "u9" 10 100))
      = Except.ok { id := "u9", role := "user" }
    ∧ inactiveUser.isActive = false := by
  exact ⟨rfl, rfl⟩

/-- Claim C5, amended: the guard answers 401 exactly when the credential
is absent, fails verification, is expired, is invalidated by the global
issued-before cutoff, or names a non-existent user; when the named user
exists it is accepted — with the role derived from `isAdmin` — regardless
of the user's `isActive` flag, which the middleware never consults. -/
theorem authGuard_unauthorized_characterization :
    ∀ (users : List UserRec) (cutoff now : Nat) (tok : Option Token),
      ((∃ e, authGuard users cutoff now tok = Except.error e ∧ e.1 = 401) ↔
        (tok = none ∨ tok = some Token.malformed ∨
         ∃ uid iat exp, tok = some (Token.signed uid iat exp) ∧
           (exp ≤ now ∨ (cutoff ≠ 0 ∧ iat ≠ 0 ∧ iat < cutoff)
             ∨ findUser users uid = none)))
      ∧ (∀ uid iat exp u, tok = some (Token.signed uid iat exp) →
           ¬ exp ≤ now →
           ¬ (cutoff ≠ 0 ∧ iat ≠ 0 ∧ iat < cutoff) →
           findUser users uid = some u →
           authGuard users cutoff now tok
             = Except.ok { id := u.id, role := if u.isAdmin then "admin" else "user" }) := by
  intro users cutoff now tok
  constructor
  · cases tok with
    | none =>
      constructor
      · intro _; exact Or.inl rfl
      · intro _; exact ⟨(401, "No token, authorization denied"), rfl, rfl⟩
    | some t =>
      cases t with
      | malformed =>
        constructor
        · intro _; exact Or.inr (Or.inl rfl)
        · intro _; exact ⟨(401, "Token is not valid"), rfl, rfl⟩
      | signed uid iat exp =>
        by_cases hexp : exp ≤ now
        · constructor
          · intro _; exact Or.inr (Or.inr ⟨uid, iat, exp, rfl, Or.inl hexp⟩)
          · intro _
            exact ⟨(401, "Token expired"), by simp [authGuard, hexp], rfl⟩
        · by_cases hcut : cutoff ≠ 0 ∧ iat ≠ 0 ∧ iat < cutoff
          · have hcb : cutoffInvalidated cutoff iat = true :=
              (cutoffInvalidated_iff cutoff iat).mpr hcut
            constructor
            · intro _
              exact Or.inr (Or.inr ⟨uid, iat, exp, rfl, Or.inr (Or.inl hcut)⟩)
            · intro _
              exact ⟨(401, "Token invalidated"), by simp [authGuard, hexp, hcb], rfl⟩
          · have hcb : cutoffInvalidated cutoff iat = false := by
              cases hb : cutoffInvalidated cutoff iat with
              | false => rfl
              | true => exact absurd ((cutoffInvalidated_iff cutoff iat).mp hb) hcut
            cases hu : findUser users uid with
            | none =>
              constructor
              · intro _
                exact Or.inr (Or.inr ⟨uid, iat, exp, rfl, Or.inr (Or.inr hu)⟩)
              · intro _
                exact ⟨(401, "Token is not valid"),
                  by simp [authGuard, hexp, hcb, hu], rfl⟩
            | some u =>
              constructor
              · rintro ⟨e, he, h401⟩
                have hok : authGuard users cutoff now (some (Token.signed uid iat exp))
                    = Except.ok { id := u.id, role := if u.isAdmin then "admin" else "user" } := by
                  simp [authGuard, hexp, hcb, hu]
                rw [hok] at he
                cases he
              · rintro (h | h | ⟨uid2, iat2, exp2, heq, hcase⟩)
                · simp at h
                · simp at h
                · have h1 : uid2 = uid ∧ iat2 = iat ∧ exp2 = exp := by
                    injection heq with heq2
                    injection heq2 with a b c
                    exact ⟨a.symm ▸ rfl, by rw [b], by rw [c]⟩
                  obtain ⟨ha, hb, hc⟩ := h1
                  subst ha; subst hb; subst hc
                  rcases hcase with hc1 | hc2 | hc3
                  · exact absurd hc1 hexp
                  · exact absurd hc2 hcut
                  · rw [hu] at hc3; cases hc3
  · intro uid iat exp u heq hnexp hncut hfind
    subst heq
    have hcb : cutoffInvalidated cutoff iat = false := by
      cases hb : cutoffInvalidated cutoff iat with
      | false => rfl
      | true => exact absurd ((cutoffInvalidated_iff cutoff iat).mp hb) hncut
    simp [authGuard, hnexp, hcb, hfind]

/-- Claim C5, witness: the characterization applied at a concrete store
and a concrete absent credential. -/
theorem authGuard_unauthorized_characterization_witness :
    ((∃ e, authGuard [inactiveUser] 0 50 none = Except.error e ∧ e.1 = 401) ↔
      ((none : Option Token) = none ∨ (none : Option Token) = some Token.malformed ∨
       ∃ uid iat exp, (none : Option Token) = some (Token.signed uid iat exp) ∧
         (exp ≤ 50 ∨ ((0 : Nat) ≠ 0 ∧ iat ≠ 0 ∧ iat < 0)
           ∨ findUser [inactiveUser] uid = none)))
    ∧ (∀ uid iat exp u, (none : Option Token) = some (Token.signed uid iat exp) →
         ¬ exp ≤ 50 →
         ¬ ((0 : Nat) ≠ 0 ∧ iat ≠ 0 ∧ iat < 0) →
         findUser [inactiveUser] uid = some u →
         authGuard [inactiveUser] 0 50 none
           = Except.ok { id := u.id, role := if u.isAdmin then "admin" else "user" }) :=
  authGuard_unauthorized_characterization [inactiveUser] 0 50 none

theorem jsToString_eq_toIdString (r : IdRepr) (h : noEmbeddedEntry r = true) :
    jsToString r = toIdString r := by
  cases r with
  | objId s => rfl
  | strId s => rfl
  | embedded s => simp [noEmbeddedEntry] at h

/-- On well-formed stored identifiers, the query's $or conditions match
exactly the canonical-string comparison. -/
theorem queryIdMatch_eq_toIdString (uid : String) (r : IdRepr)
    (hw : entryWellFormed r = true) :
    queryIdMatch (isValidObjectId uid) uid r = (toIdString r == uid) := by
  cases r with
  | strId s => rfl
  | objId s =>
    simp only [queryIdMatch, toIdString]
    cases he : s == uid with
    | false => simp
    | true =>
      have hs : s = uid := eq_of_beq he
      subst hs
      simp only [entryWellFormed] at hw
      simp [hw]
  | embedded s =>
    simp only [queryIdMatch, toIdString]
    cases he : s == uid <;> simp

theorem queryPredicate_eq_canRead (uid role : String) (c : Catalog)
    (hr : (role == "admin") = false)
    (hw : catalogWellFormed c = true) :
    (c.isPublic || queryIdMatch (isValidObjectId uid) uid c.ownerId
      || c.allowedUserIds.any (queryIdMatch (isValidObjectId uid) uid))
      = spec_canRead c uid role := by
  rw [catalogWellFormed, Bool.and_eq_true, List.all_eq_true] at hw
  unfold spec_canRead
  rw [hr]
  rw [queryIdMatch_eq_toIdString uid c.ownerId hw.1]
  rw [any_congr_mem (fun a ha => queryIdMatch_eq_toIdString uid a (hw.2 a ha))]
  simp

theorem inMemoryPredicate_eq_query (uid : String) (c : Catalog)
    (hw : catalogWellFormed c = true) (hne : catalogNoEmbedded c = true) :
    (if c.isPublic then true
     else if jsToString c.ownerId == uid then true
     else c.allowedUserIds.any (fun a => jsToString a == uid))
    = (c.isPublic || queryIdMatch (isValidObjectId uid) uid c.ownerId
        || c.allowedUserIds.any (queryIdMatch (isValidObjectId uid) uid)) := by
  rw [catalogWellFormed, Bool.and_eq_true, List.all_eq_true] at hw
  rw [catalogNoEmbedded, Bool.and_eq_true, List.all_eq_true] at hne
  rw [queryIdMatch_eq_toIdString uid c.ownerId hw.1]
  rw [any_congr_mem (fun a ha => queryIdMatch_eq_toIdString uid a (hw.2 a ha))]
  rw [jsToString_eq_toIdString c.ownerId hne.1]
  rw [any_congr_mem (fun a ha =>
    congrArg (fun s => s == uid) (jsToString_eq_toIdString a (hne.2 a ha)))]
  cases hp : c.isPublic with
  | true => simp
  | false =>
    simp only [Bool.false_or, if_false, ite_false, Bool.false_eq_true]
    cases he : toIdString c.ownerId == uid <;> simp

/-- Claim C6, counterexample: a private catalog whose owner id is stored
as an embedded object is silently dropped by the in-memory filter (its
raw toString is never the caller's id) while the query-based
`findAccessibleByUser` returns it, and the spec's `canRead` grants the
owner access — so the two implementations disagree and the in-memory one
drops a readable catalog over identifier representation. -/
theorem listAccessible_drops_embedded_owner :
    listAccessibleInMemory [embeddedOwnerCatalog] "u1" "user" = []
    ∧ findAccessibleByUser [embeddedOwnerCatalog] "u1" "user" = [embeddedOwnerCatalog]
    ∧ spec_canRead embeddedOwnerCatalog "u1" "user" = true := by
  exact ⟨rfl, rfl, rfl⟩

/-- Claim C6, amended: on stores whose ObjectId-form identifiers are
well-formed, the query-based `findAccessibleByUser` returns exactly the
catalogs `canRead` grants (admins the full set); the in-memory filter of
the catalogs route agrees with it only on stores containing no
embedded-object identifier representation — an embedded `ownerId` or
allow-list entry is silently dropped by the in-memory filter, as the
counterexample shows. -/
theorem findAccessibleByUser_matches_canRead (catalogs : List Catalog)
    (uid role : String)
    (hwf : ∀ c ∈ catalogs, catalogWellFormed c = true) :
    findAccessibleByUser catalogs uid role
        = catalogs.filter (fun c => spec_canRead c uid role)
    ∧ ((∀ c ∈ catalogs, catalogNoEmbedded c = true) →
        listAccessibleInMemory catalogs uid role
          = findAccessibleByUser catalogs uid role) := by
  constructor
  · by_cases hr : (role == "admin") = true
    · have hre : role = "admin" := eq_of_beq hr
      subst hre
      unfold findAccessibleByUser
      simp [spec_canRead]
    · have hrf : (role == "admin") = false := by
        cases h : role == "admin" with
        | false => rfl
        | true => exact absurd h hr
      unfold findAccessibleByUser
      simp only [hrf, Bool.false_eq_true, if_false, ite_false]
      exact List.filter_congr
        (fun c hc => queryPredicate_eq_canRead uid role c hrf (hwf c hc))
  · intro hne
    unfold listAccessibleInMemory findAccessibleByUser
    by_cases hr : (role == "admin") = true
    · simp [hr]
    · have hrf : (role == "admin") = false := by
        cases h : role == "admin" with
        | false => rfl
        | true => exact absurd h hr
      simp only [hrf, Bool.false_eq_true, if_false, ite_false]
      exact List.filter_congr
        (fun c hc => inMemoryPredicate_eq_query uid c (hwf c hc) (hne c hc))

/-- Claim C6, witness: on a concrete store mixing string-form and
ObjectId-form identifiers (no embedded objects), the query matches the
`canRead` filter and the two implementations agree. -/
theorem findAccessibleByUser_matches_canRead_witness :
    (findAccessibleByUser [publicCatalog, privateCatalog, objOwnerCatalog] hexId "user"
        = List.filter (fun c => spec_canRead c hexId "user")
            [publicCatalog, privateCatalog, objOwnerCatalog])
    ∧ ((∀ c ∈ [publicCatalog, privateCatalog, objOwnerCatalog],
          catalogNoEmbedded c = true) →
        listAccessibleInMemory [publicCatalog, privateCatalog, objOwnerCatalog] hexId "user"
          = findAccessibleByUser [publicCatalog, privateCatalog, objOwnerCatalog] hexId "user") :=
  findAccessibleByUser_matches_canRead
    [publicCatalog, privateCatalog, objOwnerCatalog] hexId "user" (by decide)

/-- In a product collection with no duplicate ids, two members with equal
id are the same product. -/
theorem eq_of_mem_map_nodup {l : List Product}
    (h : (l.map Product.id).Nodup)
    {p q : Product} (hp : p ∈ l) (hq : q ∈ l) (he : p.id = q.id) : p = q := by
  induction l with
  | nil => cases hp
  | cons a t ih =>
    rw [List.map_cons, List.nodup_cons] at h
    rcases List.mem_cons.mp hp with hp1 | hp2
    · rcases List.mem_cons.mp hq with hq1 | hq2
      · rw [hp1, hq1]
      · exfalso
        apply h.1
        rw [hp1] at he
        rw [he]
        exact List.mem_map_of_mem Product.id hq2
    · rcases List.mem_cons.mp hq with hq1 | hq2
      · exfalso
        apply h.1
        rw [hq1] at he
        rw [← he]
        exact List.mem_map_of_mem Product.id hp2
      · exact ih h.2 hp2 hq2

/-- Claim C7: deleting an existing catalog as an authorized caller (admin
or owner, i.e. `canUserEdit`) removes the catalog and hard-deletes every
product whose `catalogId` is that catalog, so a later fetch of any such
product id answers 404. Assumes product ids are unique, as Mongo
guarantees for `_id`. -/
theorem deleteCatalog_cascades (db : DB) (user : AuthUser) (cid : String)
    (catalog : Catalog)
    (hnd : (db.products.map Product.id).Nodup)
    (hc : findCatalog db cid = some catalog)
    (hauth : canUserEdit catalog user.id user.role = true) :
    ∃ db', deleteCatalog db user cid = Except.ok db'
      ∧ findCatalog db' cid = none
      ∧ ∀ p ∈ db.products, p.catalogId = cid →
          findProduct db' p.id = none
          ∧ fetchProduct db' p.id = Except.error (404, "Product not found") := by
  have hres : deleteCatalog db user cid = Except.ok
      { db with
        products := db.products.filter (fun p => !(p.catalogId == cid)),
        catalogs := db.catalogs.filter (fun c => !(c.id == cid)) } := by
    unfold deleteCatalog
    rw [hc]
    simp [hauth]
  refine ⟨_, hres, ?_, ?_⟩
  · apply List.find?_eq_none.mpr
    intro c hcmem
    have hfc := List.of_mem_filter hcmem
    simp only [Bool.not_eq_true'] at hfc
    simp [hfc]
  · intro p hp hpid
    have hfind : findProduct
        { db with
          products := db.products.filter (fun p => !(p.catalogId == cid)),
          catalogs := db.catalogs.filter (fun c => !(c.id == cid)) } p.id = none := by
      apply List.find?_eq_none.mpr
      intro q hq
      have hqf := List.of_mem_filter hq
      have hqmem := List.mem_of_mem_filter hq
      simp only [Bool.not_eq_true', beq_eq_false_iff_ne] at hqf
      simp only [beq_iff_eq]
      intro heq
      have hqp : q = p := eq_of_mem_map_nodup hnd hqmem hp heq
      rw [hqp] at hqf
      exact hqf hpid
    refine ⟨hfind, ?_⟩
    unfold fetchProduct
    rw [hfind]

/-- Claim C7, witness: deleting the concrete catalog holding products q1,
q2, q3 as its owner removes the catalog, and each of the three product
ids subsequently resolves to nothing and fetches as 404. -/
theorem deleteCatalog_cascades_witness :
    ∃ db', deleteCatalog db7 owner7 "c7" = Except.ok db'
      ∧ findCatalog db' "c7" = none
      ∧ ∀ p ∈ db7.products, p.catalogId = "c7" →
          findProduct db' p.id = none
          ∧ fetchProduct db' p.id = Except.error (404, "Product not found") :=
  deleteCatalog_cascades db7 owner7 "c7" threeProductCatalog (by decide) rfl rfl

/-- Claim C8: on an existing order, cancellation answers 403 when the
caller is neither admin nor the order's owner; for an authorized caller
it answers 400 on a delivered or already-cancelled order; otherwise it
sets the status to cancelled, leaving every other field unchanged. -/
theorem cancelOrder_characterization (db : DB) (user : AuthUser) (oid : String)
    (order : Order) (h : findOrder db oid = some order) :
    (user.role ≠ "admin" → order.userId ≠ user.id →
       cancelOrder db user oid = Except.error (403, "Access denied"))
    ∧ ((user.role = "admin" ∨ order.userId = user.id) → order.status = "delivered" →
       cancelOrder db user oid = Except.error (400, "Delivered orders cannot be cancelled"))
    ∧ ((user.role = "admin" ∨ order.userId = user.id) → order.status = "cancelled" →
       cancelOrder db user oid = Except.error (400, "Order is already cancelled"))
    ∧ ((user.role = "admin" ∨ order.userId = user.id) →
       order.status ≠ "delivered" → order.status ≠ "cancelled" →
       cancelOrder db user oid = Except.ok { order with status := "cancelled" }) := by
  unfold cancelOrder
  rw [h]
  refine ⟨?_, ?_, ?_, ?_⟩
  · intro hra hro
    have hg : (user.role != "admin" && order.userId != user.id) = true := by
      simp [bne_iff_ne, hra, hro]
    simp [hg]
  · intro hd hst
    have hg : (user.role != "admin" && order.userId != user.id) = false := by
      rcases hd with h1 | h2
      · simp [h1]
      · simp [h2]
    simp [hg, hst]
  · intro hd hst
    have hg : (user.role != "admin" && order.userId != user.id) = false := by
      rcases hd with h1 | h2
      · simp [h1]
      · simp [h2]
    have hnd : (order.status == "delivered") = false := by
      rw [hst]; rfl
    simp [hg, hst, hnd]
  · intro hd hst1 hst2
    have hg : (user.role != "admin" && order.userId != user.id) = false := by
      rcases hd with h1 | h2
      · simp [h1]
      · simp [h2]
    have hb1 : (order.status == "delivered") = false := beq_eq_false_iff_ne.mpr hst1
    have hb2 : (order.status == "cancelled") = false := beq_eq_false_iff_ne.mpr hst2
    simp [hg, hb1, hb2]

/-- Claim C8, witness: the order's owner cancels a concrete pending order
and its status becomes cancelled. -/
theorem cancelOrder_characterization_witness :
    cancelOrder db8 buyer "o8" = Except.ok { pendingOrder with status := "cancelled" } := by
  have h := cancelOrder_characterization db8 buyer "o8" pendingOrder rfl
  exact h.2.2.2 (Or.inr rfl) (by decide) (by decide)

/-- Claim C9: the migrate-public route is a function of the store alone —
any credential, including none, produces the same result — and it leaves
every stored catalog public: afterwards each catalog equals its old value
with `isPublic := true`, and the reported modified count is the number of
previously non-public catalogs. -/
theorem migratePublic_unauthenticated :
    ∀ (cred : Option Token) (db : DB),
      migratePublicRoute cred db = migratePublicRoute none db
      ∧ (migratePublicRoute cred db).1.catalogs
          = db.catalogs.map (fun c => { c with isPublic := true })
      ∧ (∀ c ∈ (migratePublicRoute cred db).1.catalogs, c.isPublic = true)
      ∧ (migratePublicRoute cred db).2
          = (db.catalogs.filter (fun c => !c.isPublic)).length := by
  intro cred db
  have hmap : (fun (c : Catalog) => if !c.isPublic then { c with isPublic := true } else c)
      = (fun c => { c with isPublic := true }) := by
    funext c
    cases hp : c.isPublic with
    | false => simp
    | true =>
      simp only [hp, Bool.not_true, Bool.false_eq_true, if_false, ite_false]
      cases c with
      | mk i n o a p pr =>
        simp only at hp
        rw [hp]
  have h2 : (migratePublicRoute cred db).1.catalogs
      = db.catalogs.map (fun c => { c with isPublic := true }) := by
    show db.catalogs.map _ = _
    rw [hmap]
  refine ⟨rfl, h2, ?_, rfl⟩
  intro c hcmem
  rw [h2] at hcmem
  obtain ⟨c0, _, hc0⟩ := List.mem_map.mp hcmem
  rw [← hc0]

/-- Claim C10: an admin createCatalog request that omits `isPublic`
creates the catalog with `isPublic = true` — and the catalog schema's own
declared default is also true — so the new catalog passes `hasUserAccess`
for every user id whatever its allow-list. -/
theorem createCatalog_defaults_public (user : AuthUser) (newId name : String)
    (description : Option String) (allowed : Option (List String))
    (hrole : user.role = "admin") (hname : name ≠ "") :
    ∃ c, createCatalog user newId (some name) description allowed none = Except.ok c
      ∧ c.isPublic = true
      ∧ (∀ uid, hasUserAccess c uid = true)
      ∧ catalogSchemaIsPublicDefault = true := by
  have hb : (name == "") = false := beq_eq_false_iff_ne.mpr hname
  refine ⟨{ id := newId, name := name, ownerId := IdRepr.strId user.id,
            allowedUserIds :=
              match allowed with
              | some ids => normalizeAllowedIds ids
              | none => [],
            isPublic := true, products := [] }, ?_, rfl, ?_, rfl⟩
  · unfold createCatalog
    simp [hrole, hb]
  · intro uid
    unfold hasUserAccess
    cases he : jsToString (IdRepr.strId user.id) == uid <;> simp [he]

/-- Claim C10, witness: an admin creating a concrete catalog without the
isPublic field gets a public catalog accessible to every user. -/
theorem createCatalog_defaults_public_witness :
    ∃ c, createCatalog adminCaller "c10" (some "Summer") none none none = Except.ok c
      ∧ c.isPublic = true
      ∧ (∀ uid, hasUserAccess c uid = true)
      ∧ catalogSchemaIsPublicDefault = true :=
  createCatalog_defaults_public adminCaller "c10" "Summer" none none rfl (by decide)

end Asawer
